import Mathlib

/-!
Verification of the value representation, instruction codec and flags register
of the vmz virtual machine (src/main.c), via a shallow embedding in Lean 4.

Modelling conventions:
* C `double` is modelled by its IEEE-754 bit pattern (`F64`, a 64-bit natural).
  The program converts between `uint64_t` and `double` by *numeric value
  conversion* (C casts, not bit reinterpretation), so the embedding provides
  `u64_to_f64` (integer to double, round-to-nearest-even at 53 significant
  bits, the default C rounding) and `f64_to_u64` (double to integer,
  truncation toward zero).
* C machine integers are `Nat` / `Int` with explicit wrapping where the
  program can overflow or truncate.
* The codec's static scratch buffer `ret` is passed explicitly: encoding takes
  the current buffer contents and returns the new contents together with the
  final value of the local `size` variable.  A write past the end of the
  14-byte buffer is undefined behavior in C; in the list model such a write is
  dropped by `List.set`, and the returned `size` exposes the overflow.
* Decoding in C reads through a raw pointer with no length argument; the model
  reads from a finite byte list and yields `Option.none` when the code would
  read past the end of the supplied buffer (undefined behavior in C).
-/

namespace Vmz

/-! ## IEEE-754 double model -/

/-- Number of binary digits of `n`, computed with enough fuel for 64-bit
values (the only values this development converts). -/
def bitlenAux : Nat → Nat → Nat
  | 0, _ => 0
  | fuel + 1, n => if n = 0 then 0 else bitlenAux fuel (n / 2) + 1

/-- Bit length of a natural number below `2 ^ 64`. -/
def bitlen (n : Nat) : Nat := bitlenAux 64 n

/-- Round a natural number to 53 significant bits, round-to-nearest, ties to
even: the value a C `(double)` cast gives to a `uint64_t` argument. -/
def rnd53 (n : Nat) : Nat :=
  if n < 2 ^ 53 then n
  else
    let k := bitlen n - 53
    let q := n / 2 ^ k
    let r := n % 2 ^ k
    let h := 2 ^ (k - 1)
    if h < r ∨ (r = h ∧ q % 2 = 1) then (q + 1) * 2 ^ k else q * 2 ^ k

/-- A C `double`, represented by its 64-bit IEEE-754 pattern. -/
structure F64 where
  bits : Nat
  deriving DecidableEq

/-- Biased exponent field (bits 52-62) of a double. -/
def f64_exponent (x : F64) : Nat := x.bits / 2 ^ 52 % 2 ^ 11

/-- Mantissa field (bits 0-51) of a double. -/
def f64_mantissa (x : F64) : Nat := x.bits % 2 ^ 52

/-- A double compares unequal to itself exactly when it is a NaN: exponent
field all ones and nonzero mantissa. -/
def f64_isNan (x : F64) : Bool :=
  f64_exponent x == 2047 && !(f64_mantissa x == 0)

/-- IEEE-754 bit pattern of a nonnegative integral value that is exactly
representable as a double (every output of `rnd53` below `2 ^ 65` is). -/
def f64_bits_of_val (m : Nat) : Nat :=
  if m = 0 then 0
  else
    let e := bitlen m - 1
    let sig := if e ≤ 52 then m * 2 ^ (52 - e) else m / 2 ^ (e - 52)
    (e + 1023) * 2 ^ 52 + (sig - 2 ^ 52)

/-- The C conversion `(double) n` for a `uint64_t` argument `n`: round to the
nearest representable double (ties to even). -/
def u64_to_f64 (n : Nat) : F64 := ⟨f64_bits_of_val (rnd53 n)⟩

/-- The C conversion `(uint64_t) x` for a `double` argument: truncation toward
zero.  NaN/infinity arguments and negative values at or below -1 are undefined
behavior in C and never occur on the program's own values; the model returns 0
for them. -/
def f64_to_u64 (x : F64) : Nat :=
  let E := f64_exponent x
  let M := f64_mantissa x
  if E = 2047 then 0
  else if 2 ^ 63 ≤ x.bits then 0
  else if E = 0 then 0
  else if 1075 ≤ E then (2 ^ 52 + M) * 2 ^ (E - 1075)
  else (2 ^ 52 + M) / 2 ^ (1075 - E)

/-! ## NaN boxing (struct NaNBox and the nan_* functions of main.c) -/

/-- C: `typedef struct { double v; } NaNBox;` -/
structure NaNBox where
  v : F64
  deriving DecidableEq

/-- C: `EXP_MASK = ((1LL << 11LL) - 1LL) << 52LL` -/
def EXP_MASK : Nat := (2 ^ 11 - 1) * 2 ^ 52

/-- C: `TYPE_MASK = ((1LL << 4LL) - 1LL) << 48LL` -/
def TYPE_MASK : Nat := (2 ^ 4 - 1) * 2 ^ 48

/-- C: `VALUE_MASK = (1LL << 48LL) - 1LL` -/
def VALUE_MASK : Nat := 2 ^ 48 - 1

/-- Bitwise complement on a 64-bit unsigned quantity (C `~` on `uint64_t`). -/
def not64 (m : Nat) : Nat := (2 ^ 64 - 1) ^^^ m

/-- Values of the C enum `Type`. -/
def TYPE_I64 : Nat := 0
/-- Values of the C enum `Type`. -/
def TYPE_U64 : Nat := 1
/-- Values of the C enum `Type`. -/
def TYPE_F64 : Nat := 2
/-- Values of the C enum `Type`. -/
def TYPE_STR : Nat := 3
/-- Values of the C enum `Type`. -/
def TYPE_U8 : Nat := 4

/-- C: `nan_make_inf` returns `(double) EXP_MASK` — a numeric conversion of
the integer `EXP_MASK`, i.e. the finite double 9218868437227405312.0 (not an
infinity, despite the function's name). -/
def nan_make_inf : F64 := u64_to_f64 EXP_MASK

/-- C: `nan_is_nan` returns `nan->v != nan->v`, true exactly for NaN bit
patterns. -/
def nan_is_nan (nan : NaNBox) : Bool := f64_isNan nan.v

/-- C conversion `(int)` of an `int64_t`: wrap to 32 bits (the usual
implementation-defined two's-complement behavior). -/
def c_int_of_i64 (v : Int) : Int := (v + 2 ^ 31).emod (2 ^ 32) - 2 ^ 31

/-- C `(uint64_t) abs((int) v)` for an `int64_t` argument `v`: truncate to 32
bits, take the absolute value.  (`abs(INT_MIN)` is undefined in C; the model
gives `2 ^ 31`.) -/
def abs_int (v : Int) : Nat := (c_int_of_i64 v).natAbs

/-- C: `nan_set_type(double x, Type ty)`: convert `x` to `uint64_t`, replace
bits 48-51 by the tag, convert back to `double`. -/
def nan_set_type (x : F64) (ty : Nat) : F64 :=
  u64_to_f64 ((f64_to_u64 x &&& not64 TYPE_MASK) ||| ((ty &&& 0xF) <<< 48))

/-- C: `nan_set_value(double x, int64_t v)`: sets bit 63 when `v` is zero,
stores `abs((int) v)` masked to 48 bits, converting through `uint64_t` both
ways. -/
def nan_set_value (x : F64) (v : Int) : F64 :=
  let y : Nat := if v = 0 then 2 ^ 63 else 0
  u64_to_f64 ((f64_to_u64 x &&& not64 VALUE_MASK) ||| (abs_int v &&& VALUE_MASK) ||| y)

/-- C: `nan_get_value`: convert the stored double to `uint64_t`, mask the low
48 bits, negate when bit 63 is set. -/
def nan_get_value (nan : NaNBox) : Int :=
  let bits := f64_to_u64 nan.v
  let v : Int := (bits &&& VALUE_MASK : Nat)
  if bits &&& (1 <<< 63) ≠ 0 then -v else v

/-- C: `nan_is_f64` returns `!nan_is_nan(nan)`. -/
def nan_is_f64 (nan : NaNBox) : Bool := !nan_is_nan nan

/-- C: `nan_as_i64` returns `nan_get_value(nan)`. -/
def nan_as_i64 (nan : NaNBox) : Int := nan_get_value nan

/-- C: `nan_as_u8` is declared `bool` but computes `(uint8_t)
nan_get_value(nan)`; the `uint8_t` result is converted to `bool` (nonzero to
1) by the return. -/
def nan_as_u8 (nan : NaNBox) : Bool := (nan_get_value nan).emod 256 ≠ 0

/-- C: `nan_from_f64(double f)` stores the double unchanged. -/
def nan_from_f64 (f : F64) : NaNBox := ⟨f⟩

/-- C conversion `(int64_t)` of a `uint64_t`: wrap into the signed range. -/
def u64_as_i64 (n : Nat) : Int :=
  if n < 2 ^ 63 then (n : Int) else (n : Int) - 2 ^ 64

/-- C: `nan_from_i64(uint64_t f)` (note the parameter type): box `f` with tag
`TYPE_I64`. -/
def nan_from_i64 (f : Nat) : NaNBox :=
  ⟨nan_set_type (nan_set_value nan_make_inf (u64_as_i64 f)) TYPE_I64⟩

/-- C: `nan_from_u64(uint64_t f)`: box `(int64_t) f` with tag `TYPE_U64`. -/
def nan_from_u64 (f : Nat) : NaNBox :=
  ⟨nan_set_type (nan_set_value nan_make_inf (u64_as_i64 f)) TYPE_U64⟩

/-- C: `nan_from_u8(uint8_t f)`: box `(int64_t) f` with tag `TYPE_U8`. -/
def nan_from_u8 (f : Nat) : NaNBox :=
  ⟨nan_set_type (nan_set_value nan_make_inf (f : Int)) TYPE_U8⟩

/-! ## Flags register (enum Flag, struct Flags, flag_set / flag_reset / is) -/

/-- C enum `Flag`: the six condition flags. -/
inductive Flag where
  | FLAG_E | FLAG_G | FLAG_L | FLAG_NE | FLAG_GE | FLAG_LE
  deriving DecidableEq

/-- Integer value of a `Flag` (its position in the C enum). -/
def flagVal : Flag → Nat
  | .FLAG_E => 0
  | .FLAG_G => 1
  | .FLAG_L => 2
  | .FLAG_NE => 3
  | .FLAG_GE => 4
  | .FLAG_LE => 5

/-- C: `typedef struct { uint8_t buf; } Flags;` -/
structure Flags where
  buf : Nat
  deriving DecidableEq

/-- C: `flag_new` returns `(Flags) {0}`. -/
def flag_new : Flags := ⟨0⟩

/-- C: `flags->buf |= ONE << flag;` — the `int` result is stored back into the
`uint8_t` field, truncating mod 256. -/
def flag_set (flags : Flags) (flag : Flag) : Flags :=
  ⟨(flags.buf ||| (1 <<< flagVal flag)) % 2 ^ 8⟩

/-- C: `flags->buf &= ~(ONE << flag);` — `~` acts on the promoted 32-bit
`int`, and the store truncates mod 256. -/
def flag_reset (flags : Flags) (flag : Flag) : Flags :=
  ⟨(flags.buf &&& ((2 ^ 32 - 1) ^^^ (1 <<< flagVal flag))) % 2 ^ 8⟩

/-- C: `is` returns `((flags->buf & (ONE << flag)) >> flag) != 0`. -/
def is (flags : Flags) (flag : Flag) : Bool :=
  ((flags.buf &&& (1 <<< flagVal flag)) >>> flagVal flag) != 0

/-! ## Instruction model and binary codec -/

/-- C union `_Inst_Value` with its discriminant `Inst_Value_Type`.  The
`Inst_Type` opcode and the discriminant are modelled by the byte values the
codec reads and writes.  A C string is modelled by its byte content (no
interior NUL). -/
inductive Inst_Value where
  | nan (v : NaNBox)
  | none
  | i64 (v : Int)
  | u64 (v : Nat)
  | f64 (v : F64)
  | str (s : List Nat)
  deriving DecidableEq

/-- The `Inst_Value_Type` enum value of an operand (0 = NAN, 1 = NONE,
2 = I64, 3 = U64, 4 = F64, 5 = STR). -/
def inst_value_ty : Inst_Value → Nat
  | .nan _ => 0
  | .none => 1
  | .i64 _ => 2
  | .u64 _ => 3
  | .f64 _ => 4
  | .str _ => 5

/-- C: `typedef struct { Inst_Type ty; Inst_Value v; } Inst;` — the opcode is
modelled by its byte value. -/
structure Inst where
  ty : Nat
  v : Inst_Value
  deriving DecidableEq

/-- C: `inst_new`. -/
def inst_new (ty : Nat) (v : Inst_Value) : Inst := ⟨ty, v⟩

/-- C: `inst_value_new_u64`. -/
def inst_value_new_u64 (v : Nat) : Inst_Value := .u64 v

/-- C: `inst_value_new_f64`. -/
def inst_value_new_f64 (v : F64) : Inst_Value := .f64 v

/-- C: `inst_value_new_void` (the NONE operand). -/
def inst_value_new_void : Inst_Value := .none

/-- C: `inst_value_new_nan`. -/
def inst_value_new_nan (nan : NaNBox) : Inst_Value := .nan nan

/-- C: `inst_value_new_str`. -/
def inst_value_new_str (str : List Nat) : Inst_Value := .str str

/-- C: `inst_value_new_i64`. -/
def inst_value_new_i64 (v : Int) : Inst_Value := .i64 v

/-- C: `#define INST_STR_CAP 14` — the size of the static codec buffer. -/
def INST_STR_CAP : Nat := 14

/-- Initial contents of the static buffer `static uint8_t ret[INST_STR_CAP]`
(zero-initialized). -/
def codecBuf0 : List Nat := List.replicate 14 0

/-- The `n` little-endian bytes of `x` (what `memcpy` from an `n`-byte
little-endian integer object copies). -/
def le_bytes (n : Nat) (x : Nat) : List Nat :=
  (List.range n).map (fun i => x / 2 ^ (8 * i) % 256)

/-- Little-endian bytes of an `int64_t` (two's complement object
representation). -/
def i64_le_bytes (v : Int) : List Nat := le_bytes 8 (v.emod (2 ^ 64)).toNat

/-- Integer read from little-endian bytes. -/
def le_val (l : List Nat) : Nat := l.foldr (fun b acc => b + 256 * acc) 0

/-- `int64_t` read from 8 little-endian bytes. -/
def i64_of_le (l : List Nat) : Int :=
  let n := le_val l
  if n < 2 ^ 63 then (n : Int) else (n : Int) - 2 ^ 64

/-- `double` read from 8 little-endian bytes (bit pattern). -/
def f64_of_le (l : List Nat) : F64 := ⟨le_val l⟩

/-- Store a run of bytes into the buffer starting at `off` (successive
`ret[off] = b` writes / `memcpy(ret + off, ...)`).  A write past the end of
the list is dropped — in C it is an out-of-bounds write into memory after the
14-byte static array (undefined behavior); the `size` value returned by the
encoder exposes such overflows. -/
def storeBytes (buf : List Nat) (off : Nat) : List Nat → List Nat
  | [] => buf
  | b :: rest => storeBytes (buf.set off b) (off + 1) rest

/-- C: `inst_value_to_bytes` — writes the operand record into the static
buffer and returns it.  The model takes the current buffer contents and
returns the new contents together with the final value of the local `size`
variable (the record length the code believes it wrote).  `NULL` (the string
too long error) is `Option.none`. -/
def inst_value_to_bytes (inst_value : Inst_Value) (ret : List Nat) :
    Option (List Nat × Nat) :=
  -- size_t size = 1; ret[size++] = (uint8_t) inst_value.ty;
  let size := 1
  let ret := ret.set size (inst_value_ty inst_value)
  let size := size + 1
  match inst_value with
  | .nan v => some (storeBytes ret size (le_bytes 8 v.v.bits), size + 8)
  | .none => some (ret, size)
  | .i64 v => some (storeBytes ret size (i64_le_bytes v), size + 8)
  | .u64 v => some (storeBytes ret size (le_bytes 8 (v % 2 ^ 64)), size + 8)
  | .f64 v => some (storeBytes ret size (le_bytes 8 v.bits), size + 8)
  | .str s =>
    let len := s.length
    if len > INST_STR_CAP - size then Option.none
    else
      let ret := ret.set size len
      let size := size + 1
      some (storeBytes ret size s, size + len)

/-- C: `inst_to_bytes` — encode the operand, `assert` the result is not NULL
(abort modelled as `Option.none`), then overwrite byte 0 with the opcode. -/
def inst_to_bytes (inst : Inst) (ret : List Nat) : Option (List Nat × Nat) :=
  match inst_value_to_bytes inst.v ret with
  | Option.none => Option.none
  | some (bytes, size) => some (bytes.set 0 inst.ty, size)

/-- Read `n` consecutive bytes starting at `off`; `Option.none` when any of
them lies past the end of the supplied buffer (an out-of-bounds read,
undefined behavior in C). -/
def readChunk (bytes : List Nat) (off : Nat) : Nat → Option (List Nat)
  | 0 => some []
  | n + 1 =>
    match bytes.get? off, readChunk bytes (off + 1) n with
    | some b, some rest => some (b :: rest)
    | _, _ => Option.none

/-- C: `inst_value_from_bytes(const uint8_t *bytes, Inst *ret)` — reads the
opcode byte, the operand-tag byte, then the payload the tag implies, with no
length validation.  The model takes the contents of the caller's `*ret` and
returns the exit code together with the contents of `*ret` after the call;
`Option.none` models a read past the end of the supplied buffer.

Faithful quirks kept from the source: every fixed-size payload is read with
`memcpy(&f, bytes + idx, idx + 8)`, i.e. `idx + 8` = 10 bytes (the first 8
reach `f`, the rest smash the stack); the NONE branch returns 0 without
writing `*ret`; the STR branch copies `idx + len` = `3 + len` bytes into a
16-byte local array and stores a pointer to that dead local — the model keeps
the copied bytes truncated to the 16-byte array. -/
def inst_value_from_bytes (bytes : List Nat) (ret : Inst) : Option (Nat × Inst) :=
  match bytes.get? 0, bytes.get? 1 with
  | some ty, some vty =>
    match vty with
    | 0 =>
      match readChunk bytes 2 10 with
      | some p => some (0, inst_new ty (inst_value_new_nan (nan_from_f64 (f64_of_le (p.take 8)))))
      | Option.none => Option.none
    | 1 => some (0, ret)
    | 2 =>
      match readChunk bytes 2 10 with
      | some p => some (0, inst_new ty (inst_value_new_i64 (i64_of_le (p.take 8))))
      | Option.none => Option.none
    | 3 =>
      match readChunk bytes 2 10 with
      | some p => some (0, inst_new ty (inst_value_new_u64 (le_val (p.take 8))))
      | Option.none => Option.none
    | 4 =>
      match readChunk bytes 2 10 with
      | some p => some (0, inst_new ty (inst_value_new_f64 (f64_of_le (p.take 8))))
      | Option.none => Option.none
    | 5 =>
      match bytes.get? 2 with
      | some len =>
        match readChunk bytes 3 (3 + len) with
        | some p => some (0, inst_new ty (inst_value_new_str (p.take 16)))
        | Option.none => Option.none
      | Option.none => Option.none
    | _ => some (1, ret)
  | _, _ => Option.none

/-- C: `inst_from_bytes` simply forwards to `inst_value_from_bytes`. -/
def inst_from_bytes (bytes : List Nat) (ret : Inst) : Option (Nat × Inst) :=
  inst_value_from_bytes bytes ret

/-! ## Helper lemmas -/

/-- The C test `((buf & (ONE << flag)) >> flag) != 0` reads exactly the bit at
position `flag`. -/
theorem is_testBit (fl : Flags) (f : Flag) :
    is fl f = fl.buf.testBit (flagVal f) := by
  unfold is
  rw [Nat.shiftLeft_eq, one_mul, Nat.and_two_pow, Nat.shiftRight_eq_div_pow,
    Nat.mul_div_cancel _ (Nat.two_pow_pos (flagVal f))]
  cases fl.buf.testBit (flagVal f) <;> rfl

/-- Bytes strictly below the write offset are untouched by `storeBytes`. -/
theorem storeBytes_get?_of_lt (data : List Nat) :
    ∀ (buf : List Nat) (off i : Nat), i < off →
      (storeBytes buf off data).get? i = buf.get? i := by
  induction data with
  | nil => intro buf off i _; rfl
  | cons b rest ih =>
    intro buf off i h
    show (storeBytes (buf.set off b) (off + 1) rest).get? i = _
    rw [ih (buf.set off b) (off + 1) i (Nat.lt_succ_of_lt h),
      List.get?_set_ne _ _ (by omega)]

/-- Reading back a just-written in-range index. -/
theorem get?_set_self_of_lt (l : List Nat) (n a : Nat) (h : n < l.length) :
    (l.set n a).get? n = some a := by
  rw [List.get?_set_eq]
  cases hx : l.get? n with
  | none => rw [List.get?_eq_none] at hx; omega
  | some x => rfl

/-! ## Claims -/

/-- C1.  The claim states `nan_is_f64` is false on every value produced by
`nan_from_i64` / `nan_from_u64` / `nan_from_u8`.  The code violates it: the
constructors convert numerically between `uint64_t` and `double` instead of
reinterpreting bits, so the boxed value is an ordinary finite double (about
9.2e18), `nan->v != nan->v` is false, and `nan_is_f64` answers true on every
boxed value.  This theorem evaluates the code at the failing inputs. -/
theorem nan_is_f64_true_on_boxed :
    nan_is_f64 (nan_from_i64 5) = true ∧ nan_is_f64 (nan_from_u64 5) = true ∧
      nan_is_f64 (nan_from_u8 5) = true := by
  refine ⟨by decide, by decide, by decide⟩

/-- C2.  The claim states `nan_as_i64 (nan_from_i64 i) = i` for `|i| < 2^48`.
It fails at `i = 5`: the payload 5 is destroyed when the integer
`EXP_MASK | 5` is converted to `double` (rounded to 53 significant bits, unit
in the last place 1024), so decoding returns 0. -/
theorem nan_i64_roundtrip_fails :
    nan_as_i64 (nan_from_i64 5) = 0 ∧ nan_as_i64 (nan_from_i64 5) ≠ 5 := by
  refine ⟨by decide, by decide⟩

/-- C3.  The claim states `inst_from_bytes (inst_to_bytes x) = x` for every
representable operand variant, including the NONE variant.  It fails for NONE:
encoding the instruction `{pop, none}` (opcode byte 1) yields the record
`[1, 1, 0, ...]`, but decoding that record returns success without writing the
output instruction, so the caller is left with its previous instruction
(here `{opcode 0, Int64 7}`), not with `x`. -/
theorem none_roundtrip_fails :
    inst_to_bytes (inst_new 1 inst_value_new_void) codecBuf0 =
      some ([1, 1, 0, 0, 0, 0, 0, 0, 0, 0, 0, 0, 0, 0], 2) ∧
    inst_from_bytes [1, 1, 0, 0, 0, 0, 0, 0, 0, 0, 0, 0, 0, 0]
        (inst_new 0 (inst_value_new_i64 7)) =
      some (0, inst_new 0 (inst_value_new_i64 7)) ∧
    inst_new 0 (inst_value_new_i64 7) ≠ inst_new 1 inst_value_new_void := by
  refine ⟨rfl, rfl, by decide⟩

/-- C4, counterexample.  The claim states that a buffer shorter than the
record its header implies makes decode return a `TruncatedRecord` error
without reading past the buffer.  On the 2-byte buffer `[2, 2]` (opcode 2,
operand tag `INST_V_TYPE_I64`, payload missing) the code instead reads past
the end of the supplied buffer (`Option.none` in this model marks the
out-of-bounds read); no error value is ever produced. -/
theorem decode_short_buffer_reads_oob :
    inst_value_from_bytes [2, 2] (inst_new 0 (inst_value_new_i64 7)) =
      Option.none := rfl

/-- C4, amended.  `inst_value_from_bytes` performs no length validation: on
every 2-byte buffer whose operand tag byte is `INST_V_TYPE_I64` it attempts
to read the 8-byte payload past the end of the buffer (undefined behavior in
C, `Option.none` here) instead of returning a `TruncatedRecord` error. -/
theorem decode_no_length_validation (b0 : Nat) (prev : Inst) :
    inst_value_from_bytes [b0, 2] prev = Option.none := rfl

/-- C5.  The claim states that a string longer than the remaining capacity of
the 14-byte record fails with an error and produces no bytes.  The check in
the code is off by one: a 12-byte string (record `1 + 1 + 1 + 12 = 15` bytes,
exceeding the `INST_STR_CAP = 14` byte buffer) is accepted and the final
`size` is 15 — in C this writes one byte past the static buffer.  Only at 13
bytes does the encoder fail. -/
theorem str_encode_check_off_by_one :
    inst_value_to_bytes (inst_value_new_str (List.replicate 12 97)) codecBuf0 =
      some ([0, 5, 12, 97, 97, 97, 97, 97, 97, 97, 97, 97, 97, 97], 15) ∧
    INST_STR_CAP < 15 ∧
    inst_value_to_bytes (inst_value_new_str (List.replicate 13 97)) codecBuf0 =
      Option.none := by
  refine ⟨rfl, by decide, rfl⟩

/-- C6, counterexample.  The claim states each encode call produces its own
independent buffer, so `encode y` leaves the record previously returned by
`encode x` unchanged.  In the code every call writes into the single static
buffer `ret` and returns it: after encoding `Int64 5` the buffer holds
`[0, 2, 5, ...]`; encoding `Int64 7` next rewrites that same buffer to
`[0, 2, 7, ...]` — the record returned for `x` has changed. -/
theorem encode_overwrites_previous_record :
    inst_value_to_bytes (inst_value_new_i64 5) codecBuf0 =
      some ([0, 2, 5, 0, 0, 0, 0, 0, 0, 0, 0, 0, 0, 0], 10) ∧
    inst_value_to_bytes (inst_value_new_i64 7)
        [0, 2, 5, 0, 0, 0, 0, 0, 0, 0, 0, 0, 0, 0] =
      some ([0, 2, 7, 0, 0, 0, 0, 0, 0, 0, 0, 0, 0, 0], 10) ∧
    ([0, 2, 7, 0, 0, 0, 0, 0, 0, 0, 0, 0, 0, 0] : List Nat) ≠
      [0, 2, 5, 0, 0, 0, 0, 0, 0, 0, 0, 0, 0, 0] := by
  refine ⟨rfl, rfl, by decide⟩

/-- C6, amended.  The codec is not pure: every successful
`inst_value_to_bytes` call writes its record in place into the one shared
buffer it was handed (the static `ret`) and returns that buffer — byte 1 of
the returned buffer always holds the tag of the operand just encoded, so a
later call overwrites the record an earlier call returned. -/
theorem encode_stamps_shared_buffer (iv : Inst_Value) (ret out : List Nat)
    (sz : Nat) (hlen : 2 ≤ ret.length)
    (h : inst_value_to_bytes iv ret = some (out, sz)) :
    out.get? 1 = some (inst_value_ty iv) := by
  have hset : (ret.set 1 (inst_value_ty iv)).get? 1 = some (inst_value_ty iv) :=
    get?_set_self_of_lt ret 1 (inst_value_ty iv) (by omega)
  cases iv with
  | nan v =>
    simp only [inst_value_to_bytes, Option.some.injEq, Prod.mk.injEq] at h
    rw [← h.1, storeBytes_get?_of_lt _ _ _ _ (by omega)]
    exact hset
  | none =>
    simp only [inst_value_to_bytes, Option.some.injEq, Prod.mk.injEq] at h
    rw [← h.1]
    exact hset
  | i64 v =>
    simp only [inst_value_to_bytes, Option.some.injEq, Prod.mk.injEq] at h
    rw [← h.1, storeBytes_get?_of_lt _ _ _ _ (by omega)]
    exact hset
  | u64 v =>
    simp only [inst_value_to_bytes, Option.some.injEq, Prod.mk.injEq] at h
    rw [← h.1, storeBytes_get?_of_lt _ _ _ _ (by omega)]
    exact hset
  | f64 v =>
    simp only [inst_value_to_bytes, Option.some.injEq, Prod.mk.injEq] at h
    rw [← h.1, storeBytes_get?_of_lt _ _ _ _ (by omega)]
    exact hset
  | str s =>
    simp only [inst_value_to_bytes] at h
    by_cases hl : s.length > INST_STR_CAP - 2
    · simp [hl] at h
    · simp only [hl, if_false, Option.some.injEq, Prod.mk.injEq] at h
      rw [← h.1, storeBytes_get?_of_lt _ _ _ _ (by omega),
        List.get?_set_ne _ _ (by omega)]
      exact hset

/-- C6, amended, witness: encoding `Int64 5` into the zeroed shared buffer
leaves the I64 tag in byte 1 of the returned buffer. -/
theorem encode_stamps_shared_buffer_witness :
    ([0, 2, 5, 0, 0, 0, 0, 0, 0, 0, 0, 0, 0, 0] : List Nat).get? 1 =
      some (inst_value_ty (inst_value_new_i64 5)) :=
  encode_stamps_shared_buffer (inst_value_new_i64 5) codecBuf0
    [0, 2, 5, 0, 0, 0, 0, 0, 0, 0, 0, 0, 0, 0] 10 (by decide) rfl

/-- C7.  Flags are independent: setting or resetting flag `a` never changes
the value `is` reads for a distinct flag `b`, and testing `a` after
`flag_set a` followed by `flag_reset a` yields false. -/
theorem flags_independent (fl : Flags) (a b : Flag) (h : a ≠ b) :
    is (flag_set fl a) b = is fl b ∧ is (flag_reset fl a) b = is fl b ∧
      is (flag_reset (flag_set fl a) a) a = false := by
  have hne : flagVal a ≠ flagVal b := by
    cases a <;> cases b <;> first | exact absurd rfl h | decide
  have hb8 : flagVal b < 8 := by cases b <;> decide
  have hb32 : flagVal b < 32 := by cases b <;> decide
  have ha8 : flagVal a < 8 := by cases a <;> decide
  have ha32 : flagVal a < 32 := by cases a <;> decide
  refine ⟨?_, ?_, ?_⟩
  · simp only [is_testBit, flag_set]
    rw [Nat.shiftLeft_eq, one_mul, Nat.testBit_mod_two_pow, Nat.testBit_lor,
      Nat.testBit_two_pow_of_ne hne]
    simp [hb8]
  · simp only [is_testBit, flag_reset]
    rw [Nat.shiftLeft_eq, one_mul, Nat.testBit_mod_two_pow, Nat.testBit_land,
      Nat.testBit_xor, Nat.testBit_two_pow_of_ne hne,
      Nat.testBit_two_pow_sub_one]
    simp [hb8, hb32]
  · simp only [is_testBit, flag_reset, flag_set]
    rw [Nat.shiftLeft_eq, one_mul, Nat.testBit_mod_two_pow, Nat.testBit_land,
      Nat.testBit_xor, Nat.testBit_two_pow_self, Nat.testBit_two_pow_sub_one]
    simp [ha32]

/-- C7, witness: instantiated at the flags byte 37, `a` = FLAG_G,
`b` = FLAG_E. -/
theorem flags_independent_witness :
    is (flag_set ⟨37⟩ Flag.FLAG_G) Flag.FLAG_E = is ⟨37⟩ Flag.FLAG_E ∧
      is (flag_reset ⟨37⟩ Flag.FLAG_G) Flag.FLAG_E = is ⟨37⟩ Flag.FLAG_E ∧
      is (flag_reset (flag_set ⟨37⟩ Flag.FLAG_G) Flag.FLAG_G) Flag.FLAG_G =
        false :=
  flags_independent ⟨37⟩ Flag.FLAG_G Flag.FLAG_E (by decide)

/-- C8.  Zero gets a dedicated encoding: boxing 0 through `nan_from_i64` or
`nan_from_u64` forces bit 63 of the boxed 64-bit pattern (the `uint64_t` view
of the stored double, which is how `nan_get_value` reads it), and
`nan_get_value` still decodes it to 0. -/
theorem zero_forced_sign_bit :
    (f64_to_u64 (nan_from_i64 0).v).testBit 63 = true ∧
      nan_get_value (nan_from_i64 0) = 0 ∧
      (f64_to_u64 (nan_from_u64 0).v).testBit 63 = true ∧
      nan_get_value (nan_from_u64 0) = 0 := by
  refine ⟨by decide, by decide, by decide, by decide⟩

/-- C9.  Decoding any record whose operand-tag byte (second byte) is
`INST_V_TYPE_NONE` (1) returns success (exit code 0) and never writes the
output instruction: the caller's instruction keeps exactly the contents it
had before the call, whatever the opcode byte and the rest of the buffer. -/
theorem decode_none_tag_preserves_output (b0 : Nat) (rest : List Nat)
    (prev : Inst) :
    inst_value_from_bytes (b0 :: 1 :: rest) prev = some (0, prev) := rfl

set_option maxRecDepth 100000 in
/-- C10.  `nan_as_u8` is declared `bool`, so its result is 0 or 1; in
consequence no byte `b ≥ 2` survives `nan_as_u8 (nan_from_u8 b)` — the
`fromByte/asByte` pair can round-trip at most the bytes 0 and 1. -/
theorem nan_as_u8_bool_truncates :
    (∀ v : NaNBox, (cond (nan_as_u8 v) 1 0 : Nat) ≤ 1) ∧
      ∀ b : Nat, b < 256 → 2 ≤ b →
        (cond (nan_as_u8 (nan_from_u8 b)) 1 0 : Nat) ≠ b := by
  constructor
  · intro v
    cases nan_as_u8 v <;> decide
  · decide

/-- C10, witness: at the byte 5 the round trip fails, and the result of
`nan_as_u8` on that box is at most 1. -/
theorem nan_as_u8_bool_truncates_witness :
    (cond (nan_as_u8 (nan_from_u8 5)) 1 0 : Nat) ≠ 5 :=
  nan_as_u8_bool_truncates.2 5 (by decide) (by decide)

end Vmz
